import Mathlib

/-!
Verification development for the wp-chat hybrid retrieval / canary rollout /
SLO monitoring core.  The definitions below are shallow embeddings of the
Python sources:

* `src/src/retrieval/rerank.py` — `Candidate`, `mmr_diversify`,
  `rerank_with_ce`, `dedup_by_article`
* `src/src/rerank.py` — the legacy `rerank_with_ce` (cross-encoder score
  ordering on the success path)
* `src/src/retrieval/composite_scoring.py` — `CompositeScorer`
* `src/src/management/canary_manager.py` — `CanaryConfig`, `CanaryManager`
  (gate decision, mutators, auto-rollback monitor)
* `src/src/slo_monitoring.py` — `SLOMonitor.calculate_slo_metrics`
* `src/src/search_hybrid.py` — `_minmax`

Floats are modelled as rationals; Python's stable `sorted` is modelled by a
stable insertion sort; `hashlib.md5` is modelled by an RFC 1321 MD5 over the
UTF-8 bytes of the input string.
-/

namespace WpChat

/-! ### Stable sorting (model of Python's `sorted`, which is stable) -/

/-- Insert `a` into a descending-sorted list, before the first element whose
key is not larger — so among equal keys the inserted (earlier) element comes
first, matching the stability of Python's `sorted(_, reverse=True)`. -/
def insertDesc (k : α → ℚ) (a : α) : List α → List α
  | [] => [a]
  | b :: l => if k a ≥ k b then a :: b :: l else b :: insertDesc k a l

/-- Stable sort by key, descending: model of `sorted(l, key=k, reverse=True)`. -/
def sortDesc (k : α → ℚ) (l : List α) : List α :=
  l.foldr (insertDesc k) []

/-- Insert `a` into an ascending-sorted list, before the first element whose
key is not smaller (stability for ascending sort). -/
def insertAsc (k : α → ℚ) (a : α) : List α → List α
  | [] => [a]
  | b :: l => if k a ≤ k b then a :: b :: l else b :: insertAsc k a l

/-- Stable sort by key, ascending: model of `sorted(l, key=k)`. -/
def sortAsc (k : α → ℚ) (l : List α) : List α :=
  l.foldr (insertAsc k) []

theorem insertDesc_perm (k : α → ℚ) (a : α) (l : List α) :
    List.Perm (insertDesc k a l) (a :: l) := by
  induction l with
  | nil => simp [insertDesc]
  | cons b t ih =>
      by_cases h : k a ≥ k b
      · simp [insertDesc, h]
      · simp only [insertDesc, h, if_false]
        exact (ih.cons b).trans (List.Perm.swap a b t)

theorem sortDesc_perm (k : α → ℚ) (l : List α) :
    List.Perm (sortDesc k l) l := by
  induction l with
  | nil => simp [sortDesc]
  | cons a t ih =>
      exact ((insertDesc_perm k a (sortDesc k t)).trans (ih.cons a))

theorem mem_sortDesc {k : α → ℚ} {l : List α} {x : α} :
    x ∈ sortDesc k l ↔ x ∈ l :=
  (sortDesc_perm k l).mem_iff

theorem length_sortDesc (k : α → ℚ) (l : List α) :
    (sortDesc k l).length = l.length :=
  (sortDesc_perm k l).length_eq

theorem pairwise_insertDesc (k : α → ℚ) (a : α) (l : List α)
    (h : l.Pairwise (fun x y => k x ≥ k y)) :
    (insertDesc k a l).Pairwise (fun x y => k x ≥ k y) := by
  induction l with
  | nil => simp [insertDesc]
  | cons b t ih =>
      rcases List.pairwise_cons.mp h with ⟨hb, ht⟩
      by_cases hab : k a ≥ k b
      · simp only [insertDesc, hab, if_true]
        refine List.pairwise_cons.mpr ⟨?_, h⟩
        intro y hy
        rcases List.mem_cons.mp hy with rfl | hyt
        · exact hab
        · exact le_trans (hb y hyt) hab
      · simp only [insertDesc, hab, if_false]
        refine List.pairwise_cons.mpr ⟨?_, ih ht⟩
        intro y hy
        rcases List.mem_cons.mp ((insertDesc_perm k a t).mem_iff.mp hy) with rfl | hyt
        · exact le_of_not_le hab
        · exact hb y hyt

theorem pairwise_sortDesc (k : α → ℚ) (l : List α) :
    (sortDesc k l).Pairwise (fun x y => k x ≥ k y) := by
  induction l with
  | nil => simp [sortDesc]
  | cons a t ih => exact pairwise_insertDesc k a (sortDesc k t) ih

theorem insertDesc_map (g : α → β) (k : β → ℚ) (k' : α → ℚ) (a : α) (l : List α)
    (ha : k (g a) = k' a) (hl : ∀ b ∈ l, k (g b) = k' b) :
    insertDesc k (g a) (l.map g) = (insertDesc k' a l).map g := by
  induction l with
  | nil => simp [insertDesc]
  | cons b t ih =>
      have hb : k (g b) = k' b := hl b (List.mem_cons_self b t)
      have ht : ∀ x ∈ t, k (g x) = k' x := fun x hx => hl x (List.mem_cons_of_mem b hx)
      by_cases hcmp : k' a ≥ k' b
      · simp [insertDesc, ha, hb, hcmp]
      · simp [insertDesc, ha, hb, hcmp, ih ht]

theorem sortDesc_map (g : α → β) (k : β → ℚ) (k' : α → ℚ) (l : List α)
    (h : ∀ a ∈ l, k (g a) = k' a) :
    sortDesc k (l.map g) = (sortDesc k' l).map g := by
  induction l with
  | nil => simp [sortDesc]
  | cons a t ih =>
      have ha : k (g a) = k' a := h a (List.mem_cons_self a t)
      have ht : ∀ x ∈ t, k (g x) = k' x := fun x hx => h x (List.mem_cons_of_mem a hx)
      have hsorted : ∀ b ∈ sortDesc k' t, k (g b) = k' b := by
        intro b hb
        exact ht b (mem_sortDesc.mp hb)
      show insertDesc k (g a) (sortDesc k (t.map g)) =
        (insertDesc k' a (sortDesc k' t)).map g
      rw [ih ht]
      exact insertDesc_map g k k' a (sortDesc k' t) ha hsorted

/-! ### Candidates (`src/src/retrieval/rerank.py`, `@dataclass Candidate`)

The Python `meta` dict entries written by the reranking stage
(`meta["ce_score"]`, `meta["composite_score"]`, `meta["scoring_strategy"]`,
`meta["ce_error"]`) are modelled as optional fields, absent (`none`) until
the stage writes them. -/

structure Candidate where
  doc_id : String
  chunk_id : ℤ
  text : String
  hybrid_score : ℚ
  emb : List ℚ
  ce_score : Option ℚ := none
  composite_score : Option ℚ := none
  scoring_strategy : Option String := none
  ce_error : Option String := none
deriving DecidableEq, Repr

/-- The fields of a candidate that identify it and its retrieval-time state,
independent of anything the reranking stage writes into `meta`. -/
def candKey (c : Candidate) : String × ℤ × String × ℚ × List ℚ :=
  (c.doc_id, c.chunk_id, c.text, c.hybrid_score, c.emb)

/-! ### Composite scoring (`src/src/retrieval/composite_scoring.py`) -/

/-- Configuration loaded by `CompositeScorer._load_config` from
`reranker.composite_scoring.*`; a strategy entry is a `(name, alpha)` pair. -/
structure CompositeConfig where
  enabled : Bool
  alpha : ℚ
  strategies : List (String × ℚ)

/-- The repository ships no `config.yml`, and `get_default_config()` in
`src/src/core/config.py` has no `reranker.composite_scoring` section, so
`get_config_value` returns the hard-coded defaults
`enabled=False, alpha=0.8, strategies=[]`. -/
def defaultCompositeConfig : CompositeConfig :=
  { enabled := false, alpha := 4/5, strategies := [] }

/-- `CompositeScorer._get_strategy_config`: look the strategy name up in the
configured list, falling back to the configured default alpha. -/
def get_strategy_alpha (cfg : CompositeConfig) (strategy : String) : ℚ :=
  match cfg.strategies.find? (fun s => s.1 = strategy) with
  | some s => s.2
  | none => cfg.alpha

/-- `CompositeScorer.calculate_composite_score`, projected onto the composite
score it returns (`calculate_final_score` in the Python source): if composite
scoring is disabled or the cross-encoder score is absent, the hybrid score is
returned unchanged; otherwise `alpha*ce + (1-alpha)*hybrid`. -/
def calculate_final_score (cfg : CompositeConfig) (hybrid : ℚ) (ce : Option ℚ)
    (strategy : String) : ℚ :=
  match ce with
  | none => hybrid
  | some s =>
      if cfg.enabled then
        let a := get_strategy_alpha cfg strategy
        a * s + (1 - a) * hybrid
      else hybrid

/-! ### Reranking (`rerank_with_ce` in `src/src/retrieval/rerank.py` and the
legacy copy in `src/src/rerank.py`)

The cross-encoder batch call is an external collaborator: its outcome is an
input to the embedding, either a list of sigmoid scores (one per candidate)
or an exception message.  `elapsed` is the wall-clock time the batch call
took, compared post-hoc against `timeout_sec`. -/

inductive CEResult where
  | ok : List ℚ → CEResult
  | err : String → CEResult
deriving DecidableEq, Repr

/-- Descending stable sort by `hybrid_score`:
`sorted(candidates, key=lambda c: c.hybrid_score, reverse=True)`. -/
def hybridDesc (l : List Candidate) : List Candidate :=
  sortDesc (·.hybrid_score) l

/-- `rerank_with_ce` from `src/src/retrieval/rerank.py`.  Empty input returns
empty.  On an exception from the model call, every candidate is annotated
with `meta["ce_error"]` and the top-`topk` by hybrid score are returned.  If
the (completed) batch call overran the budget, the scores are discarded and
the top-`topk` by hybrid score are returned.  Otherwise each candidate gets
`ce_score`, `composite_score` and `scoring_strategy`, and the top-`topk` by
composite score are returned. -/
def rerank_with_ce (ccfg : CompositeConfig) (scoring_strategy : String)
    (diversified : List Candidate) (res : CEResult)
    (elapsed timeout_sec : ℚ) (topk : ℕ) : List Candidate :=
  if diversified = [] then []
  else
    match res with
    | .err e =>
        (hybridDesc (diversified.map (fun c => { c with ce_error := some e }))).take topk
    | .ok ce_scores =>
        if elapsed > timeout_sec then
          (hybridDesc diversified).take topk
        else
          let updated := List.zipWith (fun c s =>
            { c with
                ce_score := some s,
                composite_score :=
                  some (calculate_final_score ccfg c.hybrid_score (some s) scoring_strategy),
                scoring_strategy := some scoring_strategy }) diversified ce_scores
          (sortDesc (fun c => c.composite_score.getD 0) updated).take topk

/-- The legacy `rerank_with_ce` from `src/src/rerank.py`: identical fallback
behaviour, but the success path attaches only `meta["ce_score"]` and sorts by
it directly. -/
def rerank_with_ce_legacy (diversified : List Candidate) (res : CEResult)
    (elapsed timeout_sec : ℚ) (topk : ℕ) : List Candidate :=
  if diversified = [] then []
  else
    match res with
    | .err e =>
        (hybridDesc (diversified.map (fun c => { c with ce_error := some e }))).take topk
    | .ok ce_scores =>
        if elapsed > timeout_sec then
          (hybridDesc diversified).take topk
        else
          let updated := List.zipWith (fun c s => { c with ce_score := some s })
            diversified ce_scores
          (sortDesc (fun c => c.ce_score.getD 0) updated).take topk

/-! ### MMR diversification (`mmr_diversify` in `src/src/retrieval/rerank.py`) -/

/-- Dot product of (unit-norm) embeddings; the Python `cos` helper assumes
normalized vectors and uses `np.dot`. -/
def dotQ (a b : List ℚ) : ℚ :=
  (List.zipWith (· * ·) a b).sum

/-- `max(cos(cand.emb, s.emb) for s in selected)` — maximum similarity to any
already-selected candidate.  In the loop `selected` is always non-empty; the
`[]` case is junk (Python's `max` would raise). -/
def maxSimTo (c : Candidate) : List Candidate → ℚ
  | [] => 0
  | s :: rest => (rest.map (fun s' => dotQ c.emb s'.emb)).foldl max (dotQ c.emb s.emb)

/-- Pick the leftmost element with maximal score and return it together with
the rest of the list in order.  This models building the `(mmr, cand)` list,
stably sorting it descending, taking the head, and `list.remove`-ing it. -/
def selectBest (f : α → ℚ) : List α → Option (α × List α)
  | [] => none
  | a :: rest =>
      match selectBest f rest with
      | none => some (a, [])
      | some (b, brem) =>
          if f a ≥ f b then some (a, rest) else some (b, a :: brem)

/-- The greedy MMR loop: while candidates remain and fewer than `topn` are
selected, append the unselected candidate maximizing
`lambda*relevance - (1-lambda)*diversity`.  `fuel` bounds the recursion and
is instantiated with the length of the remaining list. -/
def mmrLoop (lam : ℚ) : ℕ → ℕ → List Candidate → List Candidate → List Candidate
  | 0, _, selected, _ => selected
  | fuel + 1, topn, selected, remaining =>
      if remaining = [] ∨ selected.length ≥ topn then selected
      else
        match selectBest
            (fun c => lam * c.hybrid_score - (1 - lam) * maxSimTo c selected) remaining with
        | none => selected
        | some (best, rest) => mmrLoop lam fuel topn (selected ++ [best]) rest

/-- `mmr_diversify(query_emb, candidates, lambda_, topn)`: empty input returns
empty; otherwise the candidates are sorted by `hybrid_score` descending, the
head seeds the selection, and the greedy loop runs on the rest.  (The query
embedding parameter is kept for fidelity: the Python body never uses it — the
diversity term only compares candidates to already-selected candidates.) -/
def mmr_diversify (_query_emb : List ℚ) (candidates : List Candidate)
    (lam : ℚ) (topn : ℕ) : List Candidate :=
  match hybridDesc candidates with
  | [] => []
  | first :: rest => mmrLoop lam rest.length topn [first] rest

theorem selectBest_none {f : α → ℚ} {l : List α} :
    selectBest f l = none ↔ l = [] := by
  cases l with
  | nil => simp [selectBest]
  | cons a rest =>
      simp only [selectBest]
      cases h : selectBest f rest with
      | none => simp
      | some p =>
          obtain ⟨b, brem⟩ := p
          by_cases hc : f a ≥ f b <;> simp [hc]

theorem selectBest_length {f : α → ℚ} {l : List α} {b : α} {rem : List α}
    (h : selectBest f l = some (b, rem)) : rem.length + 1 = l.length := by
  induction l generalizing b rem with
  | nil => simp [selectBest] at h
  | cons a rest ih =>
      simp only [selectBest] at h
      cases hrest : selectBest f rest with
      | none =>
          rw [hrest] at h
          have : rest = [] := selectBest_none.mp hrest
          simp only [Option.some.injEq, Prod.mk.injEq] at h
          simp [← h.2, this]
      | some p =>
          obtain ⟨b', brem'⟩ := p
          rw [hrest] at h
          by_cases hc : f a ≥ f b'
          · simp only [hc, if_true, Option.some.injEq, Prod.mk.injEq] at h
            simp [← h.2]
          · simp only [hc, if_false, Option.some.injEq, Prod.mk.injEq] at h
            have := ih hrest
            rw [← h.2]
            simp only [List.length_cons]
            omega

theorem mmrLoop_length (lam : ℚ) (fuel topn : ℕ) (selected remaining : List Candidate)
    (hfuel : remaining.length ≤ fuel) :
    (mmrLoop lam fuel topn selected remaining).length =
      selected.length + min (topn - selected.length) remaining.length := by
  induction fuel generalizing selected remaining with
  | zero =>
      have : remaining = [] := List.length_eq_zero.mp (Nat.le_zero.mp hfuel)
      simp [mmrLoop, this]
  | succ n ih =>
      by_cases hstop : remaining = [] ∨ selected.length ≥ topn
      · rcases hstop with h | h
        · simp [mmrLoop, h]
        · have : topn - selected.length = 0 := Nat.sub_eq_zero_of_le h
          simp [mmrLoop, h, this]
      · push_neg at hstop
        obtain ⟨hne, hlt⟩ := hstop
        have hsel : selectBest
            (fun c => lam * c.hybrid_score - (1 - lam) * maxSimTo c selected)
            remaining ≠ none := by
          intro hc
          exact hne (selectBest_none.mp hc)
        obtain ⟨⟨best, rest⟩, hsome⟩ := Option.ne_none_iff_exists'.mp hsel
        have hlen : rest.length + 1 = remaining.length := selectBest_length hsome
        have hfuel' : rest.length ≤ n := by omega
        have hor : ¬(remaining = [] ∨ selected.length ≥ topn) := by
          push_neg
          exact ⟨hne, hlt⟩
        have hstep : mmrLoop lam (n + 1) topn selected remaining =
            mmrLoop lam n topn (selected ++ [best]) rest := by
          simp only [mmrLoop]
          rw [if_neg hor, hsome]
        rw [hstep, ih (selected ++ [best]) rest hfuel']
        simp only [List.length_append, List.length_singleton]
        omega

/-! ### MD5 (RFC 1321), as computed by `hashlib.md5` in
`CanaryManager._hash_user_id`.

All words are natural numbers kept below `2^32` by explicit `% 4294967296`. -/

/-- The 64 MD5 sine-table constants `K[i] = floor(2^32 * |sin(i+1)|)`. -/
def md5K : List ℕ :=
  [0xd76aa478, 0xe8c7b756, 0x242070db, 0xc1bdceee,
   0xf57c0faf, 0x4787c62a, 0xa8304613, 0xfd469501,
   0x698098d8, 0x8b44f7af, 0xffff5bb1, 0x895cd7be,
   0x6b901122, 0xfd987193, 0xa679438e, 0x49b40821,
   0xf61e2562, 0xc040b340, 0x265e5a51, 0xe9b6c7aa,
   0xd62f105d, 0x02441453, 0xd8a1e681, 0xe7d3fbc8,
   0x21e1cde6, 0xc33707d6, 0xf4d50d87, 0x455a14ed,
   0xa9e3e905, 0xfcefa3f8, 0x676f02d9, 0x8d2a4c8a,
   0xfffa3942, 0x8771f681, 0x6d9d6122, 0xfde5380c,
   0xa4beea44, 0x4bdecfa9, 0xf6bb4b60, 0xbebfbc70,
   0x289b7ec6, 0xeaa127fa, 0xd4ef3085, 0x04881d05,
   0xd9d4d039, 0xe6db99e5, 0x1fa27cf8, 0xc4ac5665,
   0xf4292244, 0x432aff97, 0xab9423a7, 0xfc93a039,
   0x655b59c3, 0x8f0ccc92, 0xffeff47d, 0x85845dd1,
   0x6fa87e4f, 0xfe2ce6e0, 0xa3014314, 0x4e0811a1,
   0xf7537e82, 0xbd3af235, 0x2ad7d2bb, 0xeb86d391]

/-- The 64 per-step left-rotation amounts. -/
def md5S : List ℕ :=
  [7, 12, 17, 22, 7, 12, 17, 22, 7, 12, 17, 22, 7, 12, 17, 22,
   5, 9, 14, 20, 5, 9, 14, 20, 5, 9, 14, 20, 5, 9, 14, 20,
   4, 11, 16, 23, 4, 11, 16, 23, 4, 11, 16, 23, 4, 11, 16, 23,
   6, 10, 15, 21, 6, 10, 15, 21, 6, 10, 15, 21, 6, 10, 15, 21]

/-- 32-bit left rotation of a word. -/
def rotl32 (x s : ℕ) : ℕ :=
  ((x % 4294967296) * 2 ^ s) % 4294967296 + (x % 4294967296) / 2 ^ (32 - s)

/-- The per-round nonlinear function of MD5. -/
def md5F (i b c d : ℕ) : ℕ :=
  if i < 16 then (b &&& c) ||| ((b ^^^ 4294967295) &&& d)
  else if i < 32 then (d &&& b) ||| ((d ^^^ 4294967295) &&& c)
  else if i < 48 then b ^^^ c ^^^ d
  else c ^^^ (b ||| (d ^^^ 4294967295))

/-- The per-round message-word index of MD5. -/
def md5g (i : ℕ) : ℕ :=
  if i < 16 then i % 16
  else if i < 32 then (5 * i + 1) % 16
  else if i < 48 then (3 * i + 5) % 16
  else (7 * i) % 16

/-- MD5 working state: four 32-bit words. -/
structure MD5State where
  a : ℕ
  b : ℕ
  c : ℕ
  d : ℕ
deriving DecidableEq, Repr

def md5Init : MD5State :=
  { a := 0x67452301, b := 0xefcdab89, c := 0x98badcfe, d := 0x10325476 }

/-- One of the 64 operations of an MD5 block. -/
def md5Step (M : List ℕ) (st : MD5State) (i : ℕ) : MD5State :=
  let f := (md5F i st.b st.c st.d + st.a + md5K.getD i 0 + M.getD (md5g i) 0) % 4294967296
  { a := st.d,
    b := (st.b + rotl32 f (md5S.getD i 0)) % 4294967296,
    c := st.b,
    d := st.c }

/-- Process one 16-word block and add the result into the running state. -/
def md5Compress (st : MD5State) (M : List ℕ) : MD5State :=
  let r := (List.range 64).foldl (md5Step M) st
  { a := (st.a + r.a) % 4294967296,
    b := (st.b + r.b) % 4294967296,
    c := (st.c + r.c) % 4294967296,
    d := (st.d + r.d) % 4294967296 }

/-- Group a byte list into 32-bit little-endian words (trailing incomplete
groups cannot occur on padded input). -/
def toLEWords : List ℕ → List ℕ
  | b0 :: b1 :: b2 :: b3 :: rest =>
      (b0 + b1 * 256 + b2 * 65536 + b3 * 16777216) :: toLEWords rest
  | _ => []

/-- The 8 little-endian bytes of the 64-bit message bit length. -/
def md5LenBytes (bits : ℕ) : List ℕ :=
  [bits % 256, bits / 256 % 256, bits / 65536 % 256, bits / 16777216 % 256,
   bits / 4294967296 % 256, bits / 1099511627776 % 256,
   bits / 281474976710656 % 256, bits / 72057594037927936 % 256]

/-- MD5 padding: `0x80`, zeros to 56 mod 64, then the bit length. -/
def md5Pad (msg : List ℕ) : List ℕ :=
  let L := msg.length
  let zeros := (119 - L % 64) % 64
  msg ++ [128] ++ List.replicate zeros 0 ++ md5LenBytes ((8 * L) % 18446744073709551616)

/-- Fold the compression function over consecutive 16-word blocks; the fuel
is the number of blocks. -/
def md5Blocks : ℕ → List ℕ → MD5State → MD5State
  | 0, _, st => st
  | n + 1, ws, st => md5Blocks n (ws.drop 16) (md5Compress st (ws.take 16))

/-- Full MD5 state over a byte message. -/
def md5Final (msg : List ℕ) : MD5State :=
  let ws := toLEWords (md5Pad msg)
  md5Blocks (ws.length / 16) ws md5Init

/-- `int(hashlib.md5(msg).hexdigest()[:8], 16)`: the first four digest bytes
(the little-endian bytes of the final `A` word) read as a big-endian hex
number. -/
def md5PrefixInt (msg : List ℕ) : ℕ :=
  let a := (md5Final msg).a
  (a % 256) * 16777216 + (a / 256 % 256) * 65536 + (a / 65536 % 256) * 256 +
    (a / 16777216 % 256)

/-- UTF-8 encoding of one code point, as `str.encode()` produces. -/
def utf8Bytes (c : Char) : List ℕ :=
  let n := c.toNat
  if n < 128 then [n]
  else if n < 2048 then [192 + n / 64, 128 + n % 64]
  else if n < 65536 then [224 + n / 4096, 128 + n / 64 % 64, 128 + n % 64]
  else [240 + n / 262144, 128 + n / 4096 % 64, 128 + n / 64 % 64, 128 + n % 64]

/-- UTF-8 bytes of a string (`combined.encode()` in `_hash_user_id`). -/
def strBytes (s : String) : List ℕ :=
  s.data.flatMap utf8Bytes

/-- Test vector: the first eight hex digits of `md5(b"")` are `d41d8cd9`. -/
theorem md5PrefixInt_nil : md5PrefixInt (strBytes "") = 0xd41d8cd9 := by decide

/-- Test vector: `int(md5(b"user123:default_seed").hexdigest()[:8], 16)`. -/
theorem md5PrefixInt_user123 :
    md5PrefixInt (strBytes "user123:default_seed") = 4193854963 := by decide

/-! ### Canary gate (`src/src/management/canary_manager.py`) -/

/-- `@dataclass CanaryConfig`.  Floats are rationals, the int thresholds are
integers, timestamps are rationals. -/
structure CanaryConfig where
  enabled : Bool
  rollout_percentage : ℚ
  user_seed : String
  emergency_stop : Bool
  auto_rollback_threshold : ℚ
  latency_threshold_ms : ℤ
  min_requests_for_rollback : ℤ
  last_updated : ℚ
  updated_by : String
deriving DecidableEq, Repr

/-- The dataclass defaults. -/
def defaultCanaryConfig : CanaryConfig :=
  { enabled := false,
    rollout_percentage := 0,
    user_seed := "default_seed",
    emergency_stop := false,
    auto_rollback_threshold := 1/20,
    latency_threshold_ms := 2000,
    min_requests_for_rollback := 100,
    last_updated := 0,
    updated_by := "system" }

/-- `CanaryManager._hash_user_id`: md5 the UTF-8 bytes of
`f"{user_id}:{seed}"`, take the first 8 hex digits as an integer, divide by
`0xffffffff`. -/
def hash_user_id (user_id seed : String) : ℚ :=
  (md5PrefixInt (strBytes (user_id ++ ":" ++ seed)) : ℚ) / 4294967295

/-- `CanaryManager.is_rerank_enabled_for_user`: the gate decision. -/
def is_rerank_enabled_for_user (cfg : CanaryConfig) (user_id : String) : Bool :=
  if cfg.emergency_stop then false
  else if !cfg.enabled then false
  else if cfg.rollout_percentage ≤ 0 then false
  else if cfg.rollout_percentage ≥ 1 then true
  else decide (hash_user_id user_id cfg.user_seed < cfg.rollout_percentage)

/-- `CanaryManager.update_rollout_percentage`: clamp into `[0,1]`, set
`enabled` to `percentage > 0`, stamp `last_updated`/`updated_by` (`t` is the
`time.time()` value at the call). -/
def update_rollout_percentage (cfg : CanaryConfig) (percentage : ℚ)
    (t : ℚ) (updated_by : String) : CanaryConfig :=
  let p := max 0 (min 1 percentage)
  { cfg with
      rollout_percentage := p,
      enabled := decide (p > 0),
      last_updated := t,
      updated_by := updated_by }

/-- `CanaryManager.enable_canary` (defaults to a 10% rollout). -/
def enable_canary (cfg : CanaryConfig) (percentage : ℚ) (t : ℚ)
    (updated_by : String) : CanaryConfig :=
  update_rollout_percentage cfg percentage t updated_by

/-- `CanaryManager.disable_canary`: set the rollout to 0%. -/
def disable_canary (cfg : CanaryConfig) (t : ℚ) (updated_by : String) : CanaryConfig :=
  update_rollout_percentage cfg 0 t updated_by

/-- `CanaryManager.emergency_stop`. -/
def emergency_stop (cfg : CanaryConfig) (t : ℚ) (updated_by : String) : CanaryConfig :=
  { cfg with emergency_stop := true, last_updated := t, updated_by := updated_by }

/-- `CanaryManager.clear_emergency_stop`. -/
def clear_emergency_stop (cfg : CanaryConfig) (t : ℚ) (updated_by : String) : CanaryConfig :=
  { cfg with emergency_stop := false, last_updated := t, updated_by := updated_by }

/-- One admin/loop mutation of the gate, with its timestamp and actor. -/
inductive GateOp where
  | setRollout (percentage : ℚ) (t : ℚ) (actor : String)
  | enable (percentage : ℚ) (t : ℚ) (actor : String)
  | disable (t : ℚ) (actor : String)
  | stop (t : ℚ) (actor : String)
  | clearStop (t : ℚ) (actor : String)
deriving DecidableEq, Repr

def applyGateOp (cfg : CanaryConfig) : GateOp → CanaryConfig
  | .setRollout p t a => update_rollout_percentage cfg p t a
  | .enable p t a => enable_canary cfg p t a
  | .disable t a => disable_canary cfg t a
  | .stop t a => emergency_stop cfg t a
  | .clearStop t a => clear_emergency_stop cfg t a

def applyGateOps (cfg : CanaryConfig) (ops : List GateOp) : CanaryConfig :=
  ops.foldl applyGateOp cfg

/-- The intended configuration invariant: the rollout fraction is in `[0,1]`
and `enabled` tracks `rollout_percentage > 0`. -/
def GateInv (cfg : CanaryConfig) : Prop :=
  0 ≤ cfg.rollout_percentage ∧ cfg.rollout_percentage ≤ 1 ∧
    cfg.enabled = decide (cfg.rollout_percentage > 0)

/-! ### Canary metrics and the auto-rollback monitor -/

/-- `@dataclass CanaryMetrics`. -/
structure CanaryMetrics where
  timestamp : ℚ
  total_requests : ℤ
  rerank_enabled_requests : ℤ
  rerank_disabled_requests : ℤ
  error_rate_enabled : ℚ
  error_rate_disabled : ℚ
  avg_latency_enabled : ℚ
  avg_latency_disabled : ℚ
  p95_latency_enabled : ℚ
  p95_latency_disabled : ℚ
deriving DecidableEq, Repr

/-- `CanaryManager._get_recent_metrics`: the buffer entries within the last
`minutes` minutes of `now`. -/
def get_recent_metrics (buffer : List CanaryMetrics) (now : ℚ)
    (minutes : ℚ) : List CanaryMetrics :=
  buffer.filter (fun m => decide (m.timestamp ≥ now - minutes * 60))

/-- The rate computed by `CanaryManager._should_auto_rollback`: the sum over
windows of `error_rate_enabled * rerank_enabled_requests`, divided by the sum
of `total_requests` (all requests, enabled and disabled alike). -/
def weighted_error_rate (ms : List CanaryMetrics) : ℚ :=
  let total := (ms.map (·.total_requests)).sum
  let errors := (ms.map (fun m => m.error_rate_enabled * (m.rerank_enabled_requests : ℚ))).sum
  if total > 0 then errors / (total : ℚ) else 0

/-- `CanaryManager._should_auto_rollback` over an already-filtered recent
window: no metrics → no rollback; fewer than `min_requests_for_rollback`
total requests → no rollback; otherwise roll back iff the weighted error
rate exceeds `auto_rollback_threshold`. -/
def should_auto_rollback (cfg : CanaryConfig) (recent : List CanaryMetrics) : Bool :=
  if recent = [] then false
  else
    let total := (recent.map (·.total_requests)).sum
    if total < cfg.min_requests_for_rollback then false
    else decide (weighted_error_rate recent > cfg.auto_rollback_threshold)

/-- One iteration of the `_monitor_canary` background loop at time `t`: skip
when the gate is disabled or emergency-stopped; otherwise, if
`_should_auto_rollback` fires on the 5-minute recent window, disable the
canary with actor `"auto_rollback"`. -/
def monitorStep (cfg : CanaryConfig) (buffer : List CanaryMetrics) (t : ℚ) : CanaryConfig :=
  if !cfg.enabled || cfg.emergency_stop then cfg
  else if should_auto_rollback cfg (get_recent_metrics buffer t 5) then
    disable_canary cfg t "auto_rollback"
  else cfg

/-! ### SLO monitoring (`src/src/slo_monitoring.py`) -/

/-- `@dataclass MetricPoint`. -/
structure MetricPoint where
  timestamp : ℚ
  endpoint : String
  latency_ms : ℤ
  status_code : ℤ
  rerank_enabled : Bool
  cache_hit : Bool
  fallback_used : Bool
  error_message : Option String := none
deriving DecidableEq, Repr

/-- `@dataclass SLOMetrics`. -/
structure SLOMetrics where
  window_start : ℚ
  window_end : ℚ
  total_requests : ℕ
  successful_requests : ℕ
  failed_requests : ℕ
  p95_latency_ms : ℚ
  p99_latency_ms : ℚ
  avg_latency_ms : ℚ
  success_rate : ℚ
  rerank_rate : ℚ
  cache_hit_rate : ℚ
  fallback_rate : ℚ
  error_rate : ℚ
deriving DecidableEq, Repr

/-- `statistics.quantiles(data, n=n)[i-1]` for `1 ≤ i ≤ n-1` with the default
`method='exclusive'`: sort the data, set `m = len+1`, `j = clamp(i*m//n, 1,
len-1)`, `delta = i*m - j*n`, and linearly interpolate
`(data[j-1]*(n-delta) + data[j]*delta)/n`. -/
def quantileExclusive (n i : ℕ) (data : List ℚ) : ℚ :=
  let s := sortAsc id data
  let ld := s.length
  let m := ld + 1
  let j0 := i * m / n
  let j := if j0 < 1 then 1 else if j0 > ld - 1 then ld - 1 else j0
  let delta : ℤ := (i * m : ℤ) - (j * n : ℤ)
  (s.getD (j - 1) 0 * ((n : ℚ) - (delta : ℚ)) + s.getD j 0 * (delta : ℚ)) / (n : ℚ)

/-- The buffer entries matching the endpoint inside the window
(`window_metrics` in `calculate_slo_metrics`). -/
def windowMetrics (buffer : List MetricPoint) (endpoint : String)
    (current_time window_minutes : ℚ) : List MetricPoint :=
  buffer.filter (fun m =>
    m.endpoint == endpoint && decide (m.timestamp ≥ current_time - window_minutes * 60))

/-- `SLOMonitor.calculate_slo_metrics`: `None` on an empty window; otherwise
counts successes as `200 <= status_code < 300`, takes p95/p99 from
`statistics.quantiles(latencies, n=20)[18]` / `n=100` `[98]` (falling back to
the single latency when only one point exists), and derives the rates. -/
def calculate_slo_metrics (buffer : List MetricPoint) (endpoint : String)
    (current_time : ℚ) (window_minutes : ℚ) : Option SLOMetrics :=
  let window_start := current_time - window_minutes * 60
  let wm := windowMetrics buffer endpoint current_time window_minutes
  if wm = [] then none
  else
    let total := wm.length
    let successful := (wm.filter (fun m => decide (200 ≤ m.status_code ∧ m.status_code < 300))).length
    let failed := total - successful
    let latencies : List ℚ := wm.map (fun m => (m.latency_ms : ℚ))
    let p95 := if latencies.length > 1 then quantileExclusive 20 19 latencies
      else latencies.headD 0
    let p99 := if latencies.length > 1 then quantileExclusive 100 99 latencies
      else latencies.headD 0
    let avg := latencies.sum / (total : ℚ)
    some
      { window_start := window_start,
        window_end := current_time,
        total_requests := total,
        successful_requests := successful,
        failed_requests := failed,
        p95_latency_ms := p95,
        p99_latency_ms := p99,
        avg_latency_ms := avg,
        success_rate := if total > 0 then (successful : ℚ) / (total : ℚ) else 0,
        rerank_rate := if total > 0 then
          ((wm.filter (·.rerank_enabled)).length : ℚ) / (total : ℚ) else 0,
        cache_hit_rate := if total > 0 then
          ((wm.filter (·.cache_hit)).length : ℚ) / (total : ℚ) else 0,
        fallback_rate := if total > 0 then
          ((wm.filter (·.fallback_used)).length : ℚ) / (total : ℚ) else 0,
        error_rate := if total > 0 then (failed : ℚ) / (total : ℚ) else 0 }

/-! ### Min-max normalization (`_minmax` in `src/src/search_hybrid.py`) -/

/-- `x.min()` over a non-empty array (junk `0` on empty, where numpy raises). -/
def listMin : List ℚ → ℚ
  | [] => 0
  | a :: l => l.foldl min a

/-- `x.max()` over a non-empty array (junk `0` on empty, where numpy raises). -/
def listMax : List ℚ → ℚ
  | [] => 0
  | a :: l => l.foldl max a

/-- `_minmax(x) = (x - x.min()) / (x.max() - x.min() + 1e-9)`. -/
def minmax (x : List ℚ) : List ℚ :=
  let mn := listMin x
  let mx := listMax x
  x.map (fun v => (v - mn) / (mx - mn + 1/1000000000))

/-! ## Theorems -/

theorem md5PrefixInt_le (msg : List ℕ) : md5PrefixInt msg ≤ 4294967295 := by
  show (md5Final msg).a % 256 * 16777216 + (md5Final msg).a / 256 % 256 * 65536 +
      (md5Final msg).a / 65536 % 256 * 256 + (md5Final msg).a / 16777216 % 256 ≤ 4294967295
  have h1 : (md5Final msg).a % 256 < 256 := Nat.mod_lt _ (by norm_num)
  have h2 : (md5Final msg).a / 256 % 256 < 256 := Nat.mod_lt _ (by norm_num)
  have h3 : (md5Final msg).a / 65536 % 256 < 256 := Nat.mod_lt _ (by norm_num)
  have h4 : (md5Final msg).a / 16777216 % 256 < 256 := Nat.mod_lt _ (by norm_num)
  omega

theorem hash_user_id_nonneg (u seed : String) : 0 ≤ hash_user_id u seed := by
  unfold hash_user_id
  positivity

theorem hash_user_id_le_one (u seed : String) : hash_user_id u seed ≤ 1 := by
  unfold hash_user_id
  rw [div_le_one (by norm_num)]
  exact_mod_cast md5PrefixInt_le _

/-- C1: for every user, the canary gate decision follows the documented order
with first match winning — emergency stop forces `false` unconditionally
(even with `rolloutFraction = 1`), a disabled gate gives `false`, a rollout
`≤ 0` gives `false`, a rollout `≥ 1` gives `true`, and otherwise the decision
is `h < rolloutFraction` for the deterministic md5-based hash `h` of
`userID ++ ":" ++ userSeed`, which lies in `[0,1]`. -/
theorem canary_gate_decision_order (cfg : CanaryConfig) (u : String) :
    (is_rerank_enabled_for_user cfg u =
      (if cfg.emergency_stop then false
       else if cfg.enabled = false then false
       else if cfg.rollout_percentage ≤ 0 then false
       else if cfg.rollout_percentage ≥ 1 then true
       else decide (hash_user_id u cfg.user_seed < cfg.rollout_percentage)))
    ∧ (cfg.emergency_stop = true → is_rerank_enabled_for_user cfg u = false)
    ∧ 0 ≤ hash_user_id u cfg.user_seed ∧ hash_user_id u cfg.user_seed ≤ 1 := by
  refine ⟨?_, ?_, hash_user_id_nonneg u cfg.user_seed, hash_user_id_le_one u cfg.user_seed⟩
  · unfold is_rerank_enabled_for_user
    cases he : cfg.emergency_stop <;> cases hen : cfg.enabled <;> simp
  · intro h
    simp [is_rerank_enabled_for_user, h]

/-- A configuration with the rollout fully open but the emergency brake set. -/
def stopCfg : CanaryConfig :=
  { defaultCanaryConfig with enabled := true, rollout_percentage := 1, emergency_stop := true }

theorem canary_gate_decision_order_witness :
    stopCfg.emergency_stop = true ∧ is_rerank_enabled_for_user stopCfg "alice" = false :=
  ⟨rfl, (canary_gate_decision_order stopCfg "alice").2.1 rfl⟩

/-- C5: the gate decision is a deterministic function of
`(emergencyStop, enabled, rolloutFraction, userSeed)` and the user id — two
calls under configurations agreeing on those fields (regardless of
timestamps, actors or thresholds) return the same boolean. -/
theorem canary_decision_deterministic (c1 c2 : CanaryConfig) (u : String)
    (h1 : c1.emergency_stop = c2.emergency_stop) (h2 : c1.enabled = c2.enabled)
    (h3 : c1.rollout_percentage = c2.rollout_percentage)
    (h4 : c1.user_seed = c2.user_seed) :
    is_rerank_enabled_for_user c1 u = is_rerank_enabled_for_user c2 u := by
  unfold is_rerank_enabled_for_user hash_user_id
  rw [h1, h2, h3, h4]

/-- Two snapshots of the same logical rollout state that differ in timestamp
and actor. -/
def cfgAdminHalf : CanaryConfig :=
  update_rollout_percentage defaultCanaryConfig (1/2) 10 "admin"

def cfgOpsHalf : CanaryConfig :=
  update_rollout_percentage defaultCanaryConfig (1/2) 20 "ops"

theorem canary_decision_deterministic_witness :
    is_rerank_enabled_for_user cfgAdminHalf "user123" =
      is_rerank_enabled_for_user cfgOpsHalf "user123" :=
  canary_decision_deterministic cfgAdminHalf cfgOpsHalf "user123" rfl rfl rfl rfl

theorem gateInv_default : GateInv defaultCanaryConfig := by
  refine ⟨by norm_num [defaultCanaryConfig], by norm_num [defaultCanaryConfig], ?_⟩
  simp [defaultCanaryConfig]

theorem gateInv_applyGateOp (cfg : CanaryConfig) (op : GateOp) (h : GateInv cfg) :
    GateInv (applyGateOp cfg op) := by
  obtain ⟨h0, h1, he⟩ := h
  cases op with
  | setRollout p t a =>
      exact ⟨le_max_left 0 _, max_le (by norm_num) (min_le_left 1 p), rfl⟩
  | enable p t a =>
      exact ⟨le_max_left 0 _, max_le (by norm_num) (min_le_left 1 p), rfl⟩
  | disable t a =>
      exact ⟨le_max_left 0 _, max_le (by norm_num) (min_le_left 1 0), rfl⟩
  | stop t a => exact ⟨h0, h1, he⟩
  | clearStop t a => exact ⟨h0, h1, he⟩

theorem gateInv_applyGateOps (ops : List GateOp) (cfg : CanaryConfig) (h : GateInv cfg) :
    GateInv (applyGateOps cfg ops) := by
  induction ops generalizing cfg with
  | nil => exact h
  | cons op rest ih => exact ih (applyGateOp cfg op) (gateInv_applyGateOp cfg op h)

/-- C4: every sequence of gate mutations starting from the default
configuration preserves `rolloutFraction ∈ [0,1]` and
`enabled == (rolloutFraction > 0)`; the rollout mutator clamps its fraction
argument into `[0,1]` and every mutator stamps `lastUpdated`/`updatedBy`. -/
theorem gate_mutators_preserve_invariant :
    (∀ ops : List GateOp, GateInv (applyGateOps defaultCanaryConfig ops))
    ∧ (∀ (cfg : CanaryConfig) (p t : ℚ) (a : String),
        (update_rollout_percentage cfg p t a).rollout_percentage = max 0 (min 1 p)
        ∧ 0 ≤ (update_rollout_percentage cfg p t a).rollout_percentage
        ∧ (update_rollout_percentage cfg p t a).rollout_percentage ≤ 1
        ∧ (update_rollout_percentage cfg p t a).enabled =
            decide ((update_rollout_percentage cfg p t a).rollout_percentage > 0)
        ∧ (update_rollout_percentage cfg p t a).last_updated = t
        ∧ (update_rollout_percentage cfg p t a).updated_by = a)
    ∧ (∀ (cfg : CanaryConfig) (t : ℚ) (a : String),
        (emergency_stop cfg t a).emergency_stop = true
        ∧ (emergency_stop cfg t a).last_updated = t
        ∧ (emergency_stop cfg t a).updated_by = a
        ∧ (emergency_stop cfg t a).rollout_percentage = cfg.rollout_percentage
        ∧ (emergency_stop cfg t a).enabled = cfg.enabled)
    ∧ (∀ (cfg : CanaryConfig) (t : ℚ) (a : String),
        (clear_emergency_stop cfg t a).emergency_stop = false
        ∧ (clear_emergency_stop cfg t a).last_updated = t
        ∧ (clear_emergency_stop cfg t a).updated_by = a
        ∧ (clear_emergency_stop cfg t a).rollout_percentage = cfg.rollout_percentage
        ∧ (clear_emergency_stop cfg t a).enabled = cfg.enabled) := by
  exact ⟨fun ops => gateInv_applyGateOps ops defaultCanaryConfig gateInv_default,
    fun cfg p t a => ⟨rfl, le_max_left 0 _,
      max_le (by norm_num) (min_le_left 1 p), rfl, rfl, rfl⟩,
    fun cfg t a => ⟨rfl, rfl, rfl, rfl, rfl⟩,
    fun cfg t a => ⟨rfl, rfl, rfl, rfl, rfl⟩⟩

/-! ### C3: the auto-rollback condition of the safety loop

The monitor's rate divides the rerank-enabled error mass by the sum of
**all** requests in the window (`total_requests`), not by the number of
rerank-enabled requests. -/

/-- A gate at 50% rollout set by an admin. -/
def cfgHalf : CanaryConfig :=
  update_rollout_percentage defaultCanaryConfig (1/2) 0 "admin"

/-- A metrics window in which all rerank-enabled traffic fails at a rate of
8% — above the 5% threshold — but rerank-enabled requests are only half of
the 200 total requests. -/
def mixedWindow : CanaryMetrics :=
  { timestamp := 1000,
    total_requests := 200,
    rerank_enabled_requests := 100,
    rerank_disabled_requests := 100,
    error_rate_enabled := 2/25,
    error_rate_disabled := 0,
    avg_latency_enabled := 0,
    avg_latency_disabled := 0,
    p95_latency_enabled := 0,
    p95_latency_disabled := 0 }

/-- C3 counterexample: the window has `totalRequests = 200 ≥ 100` and its
request-weighted error rate **among rerank-enabled requests**
(`errorRateEnabled`-mass divided by rerank-enabled request count) is
`0.08 > 0.05`, yet the safety loop leaves the rollout at 1/2 — because the
code divides the error mass by all 200 requests, giving `0.04 ≤ 0.05`. -/
theorem safety_loop_counterexample :
    mixedWindow.total_requests ≥ cfgHalf.min_requests_for_rollback
    ∧ (mixedWindow.error_rate_enabled * (mixedWindow.rerank_enabled_requests : ℚ)) /
        (mixedWindow.rerank_enabled_requests : ℚ) > cfgHalf.auto_rollback_threshold
    ∧ cfgHalf.enabled = true ∧ cfgHalf.emergency_stop = false
    ∧ (monitorStep cfgHalf [mixedWindow] 1000).rollout_percentage = 1/2
    ∧ (monitorStep cfgHalf [mixedWindow] 1000).updated_by = "admin" := by
  with_unfolding_all decide

/-- C3 (amended): while the gate is enabled and not emergency-stopped, if the
recent window is non-empty, its total request count (enabled and disabled
alike) reaches `minRequestsForRollback`, and the rerank-enabled error mass
divided by that **total** request count exceeds `autoRollbackErrorThreshold`,
the loop sets the rollout to 0 with actor `"auto_rollback"`; with the total
below the minimum it never rolls back. -/
theorem safety_loop_auto_rollback (cfg : CanaryConfig) (buffer : List CanaryMetrics)
    (t : ℚ) (hen : cfg.enabled = true) (hes : cfg.emergency_stop = false) :
    (get_recent_metrics buffer t 5 ≠ [] →
      ((get_recent_metrics buffer t 5).map (·.total_requests)).sum ≥
          cfg.min_requests_for_rollback →
      weighted_error_rate (get_recent_metrics buffer t 5) > cfg.auto_rollback_threshold →
      (monitorStep cfg buffer t).rollout_percentage = 0
        ∧ (monitorStep cfg buffer t).updated_by = "auto_rollback"
        ∧ (monitorStep cfg buffer t).enabled = false)
    ∧ (((get_recent_metrics buffer t 5).map (·.total_requests)).sum <
          cfg.min_requests_for_rollback →
      monitorStep cfg buffer t = cfg) := by
  have hguard : (!cfg.enabled || cfg.emergency_stop) = false := by
    rw [hen, hes]
    rfl
  constructor
  · intro hne htot hrate
    have hfire : should_auto_rollback cfg (get_recent_metrics buffer t 5) = true := by
      unfold should_auto_rollback
      rw [if_neg hne, if_neg (not_lt.mpr htot)]
      exact decide_eq_true hrate
    have hstep : monitorStep cfg buffer t = disable_canary cfg t "auto_rollback" := by
      unfold monitorStep
      rw [hguard, hfire]
      rfl
    rw [hstep]
    refine ⟨?_, rfl, ?_⟩
    · show max 0 (min 1 0) = 0
      norm_num
    · show decide (max 0 (min 1 (0:ℚ)) > 0) = false
      norm_num
  · intro hlt
    have hnofire : should_auto_rollback cfg (get_recent_metrics buffer t 5) = false := by
      unfold should_auto_rollback
      by_cases hne : get_recent_metrics buffer t 5 = []
      · rw [if_pos hne]
      · rw [if_neg hne, if_pos hlt]
    unfold monitorStep
    rw [hguard, hnofire]
    rfl

/-- A window whose 100 requests are all rerank-enabled and fail at 10%. -/
def hotWindow : CanaryMetrics :=
  { timestamp := 1000,
    total_requests := 100,
    rerank_enabled_requests := 100,
    rerank_disabled_requests := 0,
    error_rate_enabled := 1/10,
    error_rate_disabled := 0,
    avg_latency_enabled := 0,
    avg_latency_disabled := 0,
    p95_latency_enabled := 0,
    p95_latency_disabled := 0 }

theorem safety_loop_auto_rollback_witness :
    (monitorStep cfgHalf [hotWindow] 1000).rollout_percentage = 0
    ∧ (monitorStep cfgHalf [hotWindow] 1000).updated_by = "auto_rollback" := by
  have h := (safety_loop_auto_rollback cfgHalf [hotWindow] 1000
    (by with_unfolding_all decide) (by with_unfolding_all decide)).1
    (by with_unfolding_all decide) (by with_unfolding_all decide)
    (by with_unfolding_all decide)
  exact ⟨h.1, h.2.1⟩

/-! ### C7: the SLO p95 is an interpolated quantile, not nearest-rank -/

/-- A successful `search` request with the given latency, observed at t=100. -/
def searchPoint (lat : ℤ) : MetricPoint :=
  { timestamp := 100, endpoint := "search", latency_ms := lat, status_code := 200,
    rerank_enabled := false, cache_hit := false, fallback_used := false }

/-- The spec's quantile test window: nineteen 100 ms requests and one
2000 ms outlier. -/
def window20 : List MetricPoint :=
  List.replicate 19 (searchPoint 100) ++ [searchPoint 2000]

set_option maxRecDepth 100000 in
/-- C7 counterexample: on the window `[100]*19 ++ [2000]` the monitor's p95
is 1905 — the exclusive-method interpolation pulls it almost all the way to
the 2000 ms outlier — whereas the nearest-rank p95 of that multiset is 100. -/
theorem slo_p95_counterexample :
    (calculate_slo_metrics window20 "search" 100 5).map (·.p95_latency_ms) = some 1905
    ∧ ((1905 : ℚ) ≠ 100) := by
  with_unfolding_all decide

set_option maxRecDepth 100000 in
/-- C7 (amended): the monitor computes p95 with Python's
`statistics.quantiles(..., n=20)[18]` (exclusive method, linear
interpolation); on the window `[100]*19 ++ [2000]` this yields
`(100*(20-19) + 2000*19)/20 = 1905`, while the 19th order statistic (the
nearest-rank p95) of the same window is 100. -/
theorem slo_p95_interpolated :
    (calculate_slo_metrics window20 "search" 100 5).map (·.p95_latency_ms)
      = some ((100 * ((20 : ℚ) - 19) + 2000 * 19) / 20)
    ∧ (sortAsc id (window20.map (fun m => (m.latency_ms : ℚ)))).getD 18 0 = 100 := by
  with_unfolding_all decide

/-! ### C8: successes are `2xx` only, so `3xx` counts as a failure -/

/-- A window of two requests: one `200` and one `304` redirect. -/
def windowRedirect : List MetricPoint :=
  [searchPoint 50, { searchPoint 50 with status_code := 304 }]

/-- C8 counterexample: on a window with statuses `[200, 304]` the fraction of
requests with `statusCode < 400` is 1, but the monitor reports a success
rate of 1/2 — `304` is counted as a failure because the code tests
`200 <= status_code < 300`. -/
theorem slo_success_rate_counterexample :
    (calculate_slo_metrics windowRedirect "search" 100 5).map (·.success_rate)
      = some (1/2)
    ∧ ((windowRedirect.filter (fun m => decide (m.status_code < 400))).length : ℚ) /
        (windowRedirect.length : ℚ) = 1
    ∧ ((1/2 : ℚ) ≠ 1) := by
  with_unfolding_all decide

/-- C8 (amended): for every non-empty window the monitor's success rate is
the fraction of points with `200 ≤ statusCode < 300` (so `3xx` counts as a
failure), and the error rate is one minus that success rate. -/
theorem slo_success_rate_2xx (buffer : List MetricPoint) (endpoint : String)
    (current_time window_minutes : ℚ)
    (h : windowMetrics buffer endpoint current_time window_minutes ≠ []) :
    ∃ ms, calculate_slo_metrics buffer endpoint current_time window_minutes = some ms
      ∧ ms.success_rate =
          (((windowMetrics buffer endpoint current_time window_minutes).filter
              (fun m => decide (200 ≤ m.status_code ∧ m.status_code < 300))).length : ℚ) /
            ((windowMetrics buffer endpoint current_time window_minutes).length : ℚ)
      ∧ ms.error_rate = 1 - ms.success_rate := by
  set wm := windowMetrics buffer endpoint current_time window_minutes with hwm
  have hpos : 0 < wm.length := List.length_pos.mpr h
  have hsle : (wm.filter
      (fun m => decide (200 ≤ m.status_code ∧ m.status_code < 300))).length ≤ wm.length :=
    List.length_filter_le _ _
  unfold calculate_slo_metrics
  rw [← hwm, if_neg h]
  refine ⟨_, rfl, ?_, ?_⟩
  · simp only [if_pos hpos]
  · simp only [if_pos hpos]
    have htQ : (0 : ℚ) < (wm.length : ℚ) := by exact_mod_cast hpos
    rw [Nat.cast_sub hsle]
    field_simp

theorem slo_success_rate_2xx_witness :
    windowMetrics windowRedirect "search" 100 5 ≠ []
    ∧ ∃ ms, calculate_slo_metrics windowRedirect "search" 100 5 = some ms
      ∧ ms.success_rate =
          (((windowMetrics windowRedirect "search" 100 5).filter
              (fun m => decide (200 ≤ m.status_code ∧ m.status_code < 300))).length : ℚ) /
            ((windowMetrics windowRedirect "search" 100 5).length : ℚ)
      ∧ ms.error_rate = 1 - ms.success_rate :=
  ⟨by with_unfolding_all decide,
    slo_success_rate_2xx windowRedirect "search" 100 5 (by with_unfolding_all decide)⟩

/-! ### C9: min-max normalization bounds -/

theorem foldl_min_le_init (l : List ℚ) (a : ℚ) : l.foldl min a ≤ a := by
  induction l generalizing a with
  | nil => exact le_refl a
  | cons b t ih => exact le_trans (ih (min a b)) (min_le_left a b)

theorem foldl_min_le_mem (l : List ℚ) (a : ℚ) {v : ℚ} (h : v ∈ l) :
    l.foldl min a ≤ v := by
  induction l generalizing a with
  | nil => cases h
  | cons b t ih =>
      rcases List.mem_cons.mp h with rfl | hvt
      · exact le_trans (foldl_min_le_init t (min a v)) (min_le_right a v)
      · exact ih (min a b) hvt

theorem foldl_min_mem (l : List ℚ) (a : ℚ) : l.foldl min a = a ∨ l.foldl min a ∈ l := by
  induction l generalizing a with
  | nil => exact Or.inl rfl
  | cons b t ih =>
      rcases ih (min a b) with h | h
      · rcases min_choice a b with hm | hm
        · exact Or.inl (h.trans hm)
        · refine Or.inr ?_
          rw [List.foldl_cons, h, hm]
          exact List.mem_cons_self b t
      · exact Or.inr (List.mem_cons_of_mem b h)

theorem foldl_max_ge_init (l : List ℚ) (a : ℚ) : a ≤ l.foldl max a := by
  induction l generalizing a with
  | nil => exact le_refl a
  | cons b t ih => exact le_trans (le_max_left a b) (ih (max a b))

theorem foldl_max_ge_mem (l : List ℚ) (a : ℚ) {v : ℚ} (h : v ∈ l) :
    v ≤ l.foldl max a := by
  induction l generalizing a with
  | nil => cases h
  | cons b t ih =>
      rcases List.mem_cons.mp h with rfl | hvt
      · exact le_trans (le_max_right a v) (foldl_max_ge_init t (max a v))
      · exact ih (max a b) hvt

theorem foldl_max_mem (l : List ℚ) (a : ℚ) : l.foldl max a = a ∨ l.foldl max a ∈ l := by
  induction l generalizing a with
  | nil => exact Or.inl rfl
  | cons b t ih =>
      rcases ih (max a b) with h | h
      · rcases max_choice a b with hm | hm
        · exact Or.inl (h.trans hm)
        · exact Or.inr (by rw [List.foldl_cons, h, hm]; exact List.mem_cons_self b t)
      · exact Or.inr (List.mem_cons_of_mem b h)

theorem listMin_le {l : List ℚ} {v : ℚ} (h : v ∈ l) : listMin l ≤ v := by
  cases l with
  | nil => cases h
  | cons a t =>
      rcases List.mem_cons.mp h with rfl | hvt
      · exact foldl_min_le_init t v
      · exact foldl_min_le_mem t a hvt

theorem listMin_mem {l : List ℚ} (h : l ≠ []) : listMin l ∈ l := by
  cases l with
  | nil => exact absurd rfl h
  | cons a t =>
      rcases foldl_min_mem t a with hm | hm
      · rw [show listMin (a :: t) = t.foldl min a from rfl, hm]
        exact List.mem_cons_self a t
      · exact List.mem_cons_of_mem a hm

theorem listMax_ge {l : List ℚ} {v : ℚ} (h : v ∈ l) : v ≤ listMax l := by
  cases l with
  | nil => cases h
  | cons a t =>
      rcases List.mem_cons.mp h with rfl | hvt
      · exact foldl_max_ge_init t v
      · exact foldl_max_ge_mem t a hvt

theorem listMax_mem {l : List ℚ} (h : l ≠ []) : listMax l ∈ l := by
  cases l with
  | nil => exact absurd rfl h
  | cons a t =>
      rcases foldl_max_mem t a with hm | hm
      · rw [show listMax (a :: t) = t.foldl max a from rfl, hm]
        exact List.mem_cons_self a t
      · exact List.mem_cons_of_mem a hm

/-- C9 counterexample: `_minmax([0, 1])` has maximum
`10^9/(10^9+1)`, which is strictly below 1 although the inputs are not all
equal — the epsilon in the denominator keeps the maximum from reaching 1. -/
theorem minmax_max_counterexample :
    listMax (minmax [0, 1]) = 1000000000/1000000001
    ∧ listMax (minmax [0, 1]) ≠ 1
    ∧ ((0 : ℚ) ≠ 1) := by
  norm_num [minmax, listMin, listMax]

/-- C9 (amended): for every non-empty input, the normalized minimum is
exactly 0 and every normalized value lies in `[0, 1)`; the normalized
maximum equals `(max-min)/(max-min+ε)`, strictly below 1 (and the
all-equal case yields the well-defined value 0 everywhere, no NaN/∞). -/
theorem minmax_bounds (x : List ℚ) (h : x ≠ []) :
    listMin (minmax x) = 0
    ∧ listMax (minmax x) =
        (listMax x - listMin x) / (listMax x - listMin x + 1/1000000000)
    ∧ listMax (minmax x) < 1
    ∧ ∀ v ∈ minmax x, 0 ≤ v ∧ v < 1 := by
  have hmnmem : listMin x ∈ x := listMin_mem h
  have hmxmem : listMax x ∈ x := listMax_mem h
  have hle : listMin x ≤ listMax x := listMax_ge hmnmem
  have hdpos : (0:ℚ) < listMax x - listMin x + 1/1000000000 := by
    have h9 : (0:ℚ) < 1/1000000000 := by norm_num
    linarith
  have hunf : minmax x =
      x.map (fun v => (v - listMin x) / (listMax x - listMin x + 1/1000000000)) := rfl
  have hval : ∀ v ∈ x,
      0 ≤ (v - listMin x) / (listMax x - listMin x + 1/1000000000)
      ∧ (v - listMin x) / (listMax x - listMin x + 1/1000000000) < 1 := by
    intro v hv
    refine ⟨div_nonneg (by linarith [listMin_le hv]) hdpos.le, ?_⟩
    rw [div_lt_one hdpos]
    linarith [listMax_ge hv]
  have hmap : ∀ v ∈ minmax x, 0 ≤ v ∧ v < 1 := by
    intro v hv
    rw [hunf] at hv
    obtain ⟨w, hw, rfl⟩ := List.mem_map.mp hv
    exact hval w hw
  have hne : minmax x ≠ [] := by
    rw [hunf]
    simpa using h
  refine ⟨?_, ?_, ?_, hmap⟩
  · have h1 : listMin (minmax x) ≤ 0 := by
      have hm : (listMin x - listMin x) / (listMax x - listMin x + 1/1000000000)
          ∈ minmax x := by
        rw [hunf]
        exact List.mem_map_of_mem _ hmnmem
      simpa using listMin_le hm
    have h2 : 0 ≤ listMin (minmax x) := (hmap _ (listMin_mem hne)).1
    linarith
  · have h1 : (listMax x - listMin x) / (listMax x - listMin x + 1/1000000000)
        ≤ listMax (minmax x) := by
      refine listMax_ge ?_
      rw [hunf]
      exact List.mem_map_of_mem _ hmxmem
    have h2 : listMax (minmax x) ≤
        (listMax x - listMin x) / (listMax x - listMin x + 1/1000000000) := by
      have hmem := listMax_mem hne
      rw [hunf] at hmem
      obtain ⟨w, hw, hweq⟩ := List.mem_map.mp hmem
      rw [hunf, ← hweq]
      exact (div_le_div_iff_of_pos_right hdpos).mpr (sub_le_sub_right (listMax_ge hw) _)
    linarith
  · exact (hmap _ (listMax_mem hne)).2

theorem minmax_bounds_witness :
    ([(0:ℚ), 1] ≠ [])
    ∧ (listMin (minmax [0, 1]) = 0
      ∧ listMax (minmax [0, 1]) =
          (listMax [0, 1] - listMin [0, 1]) / (listMax [0, 1] - listMin [0, 1] + 1/1000000000)
      ∧ listMax (minmax [0, 1]) < 1
      ∧ ∀ v ∈ minmax [0, 1], 0 ≤ v ∧ v < 1) :=
  ⟨by simp, minmax_bounds [0, 1] (by simp)⟩

/-! ### C10: MMR output length -/

/-- A one-element candidate pool. -/
def candA : Candidate :=
  { doc_id := "a", chunk_id := 0, text := "alpha", hybrid_score := 1, emb := [1] }

/-- A second candidate with a lower hybrid score. -/
def candB : Candidate :=
  { doc_id := "b", chunk_id := 1, text := "beta", hybrid_score := 1/2, emb := [0] }

/-- C10 counterexample: with `topN = 0` and one candidate, `mmr_diversify`
returns 1 candidate, not `min(0, 1) = 0` — the seed candidate is selected
before the loop ever checks `topN`. -/
theorem mmr_topn_zero_counterexample :
    (mmr_diversify [1] [candA] (7/10) 0).length = 1
    ∧ (1 : ℕ) ≠ min 0 [candA].length := by
  constructor
  · with_unfolding_all decide
  · decide

/-- C10 (amended): `mmr_diversify` returns
`min(topN, len(candidates))` candidates whenever `topN ≥ 1` (and 0 on an
empty pool), but for `topN = 0` on a non-empty pool it still returns the
seeded top-scoring candidate: the length is
`if candidates = [] then 0 else min (max topN 1) len(candidates)`. -/
theorem mmr_output_length (qe : List ℚ) (cands : List Candidate) (lam : ℚ) (topn : ℕ) :
    (mmr_diversify qe cands lam topn).length =
      if cands = [] then 0 else min (max topn 1) cands.length := by
  unfold mmr_diversify
  cases hc : hybridDesc cands with
  | nil =>
      have h0 : cands.length = 0 := by
        have := length_sortDesc (fun c : Candidate => c.hybrid_score) cands
        rw [show hybridDesc cands = sortDesc (·.hybrid_score) cands from rfl] at hc
        rw [hc] at this
        simpa using this.symm
      rw [if_pos (List.length_eq_zero.mp h0)]
      rfl
  | cons first rest =>
      have hlen : rest.length + 1 = cands.length := by
        have := length_sortDesc (fun c : Candidate => c.hybrid_score) cands
        rw [show hybridDesc cands = sortDesc (·.hybrid_score) cands from rfl] at hc
        rw [hc] at this
        simpa using this
      have hne : cands ≠ [] := by
        intro hnil
        rw [hnil] at hlen
        simp at hlen
      rw [if_neg hne]
      rw [mmrLoop_length lam rest.length topn [first] rest (le_refl _)]
      simp only [List.length_singleton]
      omega

/-! ### C2: reranker timeout fallback -/

theorem rerank_with_ce_ok_timeout (ccfg : CompositeConfig) (strategy : String)
    (diversified : List Candidate) (scores : List ℚ) (elapsed timeout_sec : ℚ) (topk : ℕ)
    (hto : elapsed > timeout_sec) :
    rerank_with_ce ccfg strategy diversified (.ok scores) elapsed timeout_sec topk
      = (hybridDesc diversified).take topk := by
  by_cases hd : diversified = []
  · subst hd
    simp [rerank_with_ce, hybridDesc, sortDesc]
  · unfold rerank_with_ce
    rw [if_neg hd]
    show (if elapsed > timeout_sec then (hybridDesc diversified).take topk else _)
      = (hybridDesc diversified).take topk
    rw [if_pos hto]

theorem rerank_with_ce_legacy_ok_timeout (diversified : List Candidate) (scores : List ℚ)
    (elapsed timeout_sec : ℚ) (topk : ℕ) (hto : elapsed > timeout_sec) :
    rerank_with_ce_legacy diversified (.ok scores) elapsed timeout_sec topk
      = (hybridDesc diversified).take topk := by
  by_cases hd : diversified = []
  · subst hd
    simp [rerank_with_ce_legacy, hybridDesc, sortDesc]
  · unfold rerank_with_ce_legacy
    rw [if_neg hd]
    show (if elapsed > timeout_sec then (hybridDesc diversified).take topk else _)
      = (hybridDesc diversified).take topk
    rw [if_pos hto]

/-- C2: when the batch scoring call completes but overruns the timeout
budget, `rerank_with_ce` (both the current and the legacy version) returns
exactly the top-`topk` candidates of its input by `hybridScore` descending,
that result is sorted by `hybridScore`, and no returned candidate carries a
rerank score — the computed scores are discarded, never attached. -/
theorem rerank_timeout_fallback (ccfg : CompositeConfig) (strategy : String)
    (diversified : List Candidate) (scores : List ℚ) (elapsed timeout_sec : ℚ) (topk : ℕ)
    (hto : elapsed > timeout_sec) (hclean : ∀ c ∈ diversified, c.ce_score = none) :
    rerank_with_ce ccfg strategy diversified (.ok scores) elapsed timeout_sec topk
        = (hybridDesc diversified).take topk
    ∧ (∀ c ∈ rerank_with_ce ccfg strategy diversified (.ok scores) elapsed timeout_sec topk,
        c.ce_score = none)
    ∧ (rerank_with_ce ccfg strategy diversified (.ok scores) elapsed timeout_sec topk).Pairwise
        (fun a b => a.hybrid_score ≥ b.hybrid_score)
    ∧ rerank_with_ce_legacy diversified (.ok scores) elapsed timeout_sec topk
        = (hybridDesc diversified).take topk := by
  have heq := rerank_with_ce_ok_timeout ccfg strategy diversified scores elapsed
    timeout_sec topk hto
  refine ⟨heq, ?_, ?_,
    rerank_with_ce_legacy_ok_timeout diversified scores elapsed timeout_sec topk hto⟩
  · intro c hc
    rw [heq] at hc
    have hmem : c ∈ hybridDesc diversified := List.take_subset topk _ hc
    exact hclean c (mem_sortDesc.mp hmem)
  · rw [heq]
    exact (pairwise_sortDesc (·.hybrid_score) diversified).sublist
      (List.take_sublist topk _)

theorem rerank_timeout_fallback_witness :
    ((6 : ℚ) > 5)
    ∧ rerank_with_ce defaultCompositeConfig "default" [candB, candA]
        (.ok [1/4, 3/4]) 6 5 1 = (hybridDesc [candB, candA]).take 1 :=
  ⟨by norm_num,
    (rerank_timeout_fallback defaultCompositeConfig "default" [candB, candA]
      [1/4, 3/4] 6 5 1 (by norm_num) (by simp [candA, candB])).1⟩

/-! ### C6: with composite scoring disabled, the successful rerank path
returns the hybrid-score ranking -/

theorem zipWith_eq_map_zip (f : α → β → γ) :
    ∀ (l : List α) (s : List β),
      List.zipWith f l s = (l.zip s).map (fun p => f p.1 p.2)
  | [], _ => by simp
  | _ :: _, [] => by simp
  | a :: l, b :: s => by
      simp only [List.zipWith_cons_cons, List.zip_cons_cons, List.map_cons]
      rw [zipWith_eq_map_zip f l s]

theorem mem_zipWith (f : α → β → γ) :
    ∀ (l : List α) (s : List β) (c : γ),
      c ∈ List.zipWith f l s → ∃ a ∈ l, ∃ b ∈ s, c = f a b
  | [], _, c, h => by simp at h
  | _ :: _, [], c, h => by simp at h
  | a :: l, b :: s, c, h => by
      rcases List.mem_cons.mp h with rfl | ht
      · exact ⟨a, List.mem_cons_self a l, b, List.mem_cons_self b s, rfl⟩
      · obtain ⟨a', ha, b', hb, rfl⟩ := mem_zipWith f l s _ ht
        exact ⟨a', List.mem_cons_of_mem a ha, b', List.mem_cons_of_mem b hb, rfl⟩

theorem calculate_final_score_disabled (ccfg : CompositeConfig) (h s : ℚ)
    (strategy : String) (hdis : ccfg.enabled = false) :
    calculate_final_score ccfg h (some s) strategy = h := by
  simp [calculate_final_score, hdis]

/-- C6: with composite scoring disabled in configuration (its default), the
successful within-budget rerank path returns the same candidates in the same
order as the hybrid-score fallback path (`candKey` erases only the fields
the stage writes), and every returned candidate's `compositeScore` equals
its `hybridScore` — the computed cross-encoder scores never influence the
returned ranking. -/
theorem rerank_disabled_composite (ccfg : CompositeConfig) (strategy : String)
    (diversified : List Candidate) (scores : List ℚ) (elapsed timeout_sec : ℚ) (topk : ℕ)
    (hdis : ccfg.enabled = false)
    (hlen : diversified.length ≤ scores.length)
    (hok : ¬ elapsed > timeout_sec) :
    (rerank_with_ce ccfg strategy diversified (.ok scores) elapsed timeout_sec topk).map
        candKey
      = ((hybridDesc diversified).take topk).map candKey
    ∧ ∀ c ∈ rerank_with_ce ccfg strategy diversified (.ok scores) elapsed timeout_sec topk,
        c.composite_score = some c.hybrid_score := by
  by_cases hd : diversified = []
  · subst hd
    constructor
    · simp [rerank_with_ce, hybridDesc, sortDesc]
    · intro c hc
      rw [show rerank_with_ce ccfg strategy [] (.ok scores) elapsed timeout_sec topk = []
        by simp [rerank_with_ce]] at hc
      cases hc
  · have hattach : ∀ (c : Candidate) (s : ℚ),
        calculate_final_score ccfg c.hybrid_score (some s) strategy = c.hybrid_score :=
      fun c s => calculate_final_score_disabled ccfg c.hybrid_score s strategy hdis
    have hstep : rerank_with_ce ccfg strategy diversified (.ok scores) elapsed timeout_sec topk
        = (sortDesc (fun c => c.composite_score.getD 0)
            (List.zipWith (fun c s =>
              { c with
                  ce_score := some s,
                  composite_score :=
                    some (calculate_final_score ccfg c.hybrid_score (some s) strategy),
                  scoring_strategy := some strategy }) diversified scores)).take topk := by
      unfold rerank_with_ce
      rw [if_neg hd]
      show (if elapsed > timeout_sec then _ else _) = _
      rw [if_neg hok]
    set g : Candidate × ℚ → Candidate := fun p =>
      { p.1 with
          ce_score := some p.2,
          composite_score :=
            some (calculate_final_score ccfg p.1.hybrid_score (some p.2) strategy),
          scoring_strategy := some strategy } with hg
    have hz : List.zipWith (fun c s =>
        { c with
            ce_score := some s,
            composite_score :=
              some (calculate_final_score ccfg c.hybrid_score (some s) strategy),
            scoring_strategy := some strategy }) diversified scores
        = (diversified.zip scores).map g :=
      zipWith_eq_map_zip _ diversified scores
    have hkey : ∀ p ∈ diversified.zip scores,
        (g p).composite_score.getD 0 = p.1.hybrid_score := by
      intro p _
      show (some (calculate_final_score ccfg p.1.hybrid_score (some p.2) strategy)).getD 0
        = p.1.hybrid_score
      rw [Option.getD_some, hattach]
    have hsort : sortDesc (fun c => c.composite_score.getD 0) ((diversified.zip scores).map g)
        = (sortDesc (fun p => p.1.hybrid_score) (diversified.zip scores)).map g :=
      sortDesc_map g (fun c => c.composite_score.getD 0) (fun p => p.1.hybrid_score)
        (diversified.zip scores) hkey
    have hfst : sortDesc (·.hybrid_score) ((diversified.zip scores).map Prod.fst)
        = (sortDesc (fun p => p.1.hybrid_score) (diversified.zip scores)).map Prod.fst :=
      sortDesc_map Prod.fst (·.hybrid_score) (fun p => p.1.hybrid_score)
        (diversified.zip scores) (fun p _ => rfl)
    have hzfst : (diversified.zip scores).map Prod.fst = diversified :=
      List.map_fst_zip diversified scores hlen
    have key : List.map candKey
        (List.map g (sortDesc (fun p => p.1.hybrid_score) (diversified.zip scores)))
        = List.map candKey (hybridDesc diversified) := by
      rw [List.map_map]
      have h1 : (candKey ∘ g) = (candKey ∘ Prod.fst) := funext fun p => rfl
      rw [h1, ← List.map_map, ← hfst, hzfst]
      rfl
    constructor
    · rw [hstep, hz, hsort]
      simp only [List.map_take]
      rw [key]
    · intro c hc
      rw [hstep, hz] at hc
      have hmem : c ∈ (sortDesc (fun p => p.1.hybrid_score) (diversified.zip scores)).map g := by
        rw [← hsort]
        exact List.take_subset topk _ hc
      obtain ⟨p, _, hpc⟩ := List.mem_map.mp hmem
      rw [← hpc]
      show some (calculate_final_score ccfg p.1.hybrid_score (some p.2) strategy)
        = some (g p).hybrid_score
      rw [hattach]

theorem rerank_disabled_composite_witness :
    (defaultCompositeConfig.enabled = false)
    ∧ ((rerank_with_ce defaultCompositeConfig "default" [candB, candA]
          (.ok [1/4, 3/4]) 1 5 2).map candKey
        = ((hybridDesc [candB, candA]).take 2).map candKey)
    ∧ ∀ c ∈ rerank_with_ce defaultCompositeConfig "default" [candB, candA]
          (.ok [1/4, 3/4]) 1 5 2, c.composite_score = some c.hybrid_score :=
  ⟨rfl,
    (rerank_disabled_composite defaultCompositeConfig "default" [candB, candA]
      [1/4, 3/4] 1 5 2 rfl (by norm_num) (by norm_num)).1,
    (rerank_disabled_composite defaultCompositeConfig "default" [candB, candA]
      [1/4, 3/4] 1 5 2 rfl (by norm_num) (by norm_num)).2⟩

end WpChat
